import Mathlib

/-!
Shallow embedding of the repository source file
`src/python/cerebras_analyzer.py`: a single linear pipeline that
shallow-clones a repository, collects source files, builds a bounded
prompt, posts it to a chat-completion endpoint, sanitizes the answer and
prints it.  Python strings are modelled as lists of Unicode code points
(`List Char`), which matches Python length, indexing and slicing
semantics.  Effects (stdout, stderr, DNS, clone, HTTP, mkdir, rmtree)
are modelled as an explicit event trace together with a set of existing
directories; the outcomes of the external calls (DNS, git clone, HTTP)
are oracles supplied by a `World` value.
-/

/-- Python strings are sequences of code points. -/
abbrev PyStr := List Char

/-- Embed a Lean string literal into the Python string model. -/
def pstr (s : String) : PyStr := s.toList

/-- Whitespace characters removed by Python `str.strip()` (ASCII subset;
the CPython version also strips some further Unicode spaces). -/
def isPyWs (c : Char) : Bool :=
  c == ' ' || c == '\t' || c == '\n' || c == '\r' || c == '\x0b' || c == '\x0c'

/-- Python `str.strip()`: remove leading and trailing whitespace. -/
def pyStrip (s : PyStr) : PyStr :=
  ((s.dropWhile isPyWs).reverse.dropWhile isPyWs).reverse

/-- Python `str.find` for a single-character needle: index of the first
occurrence, `none` where Python returns `-1`. -/
def pyFind (c : Char) : PyStr → Option Nat
  | [] => none
  | a :: r => if a = c then some 0 else (pyFind c r).map (· + 1)

/-- Python `str.rfind` for a single-character needle: index of the last
occurrence, `none` where Python returns `-1`. -/
def pyRFind (c : Char) : PyStr → Option Nat
  | [] => none
  | a :: r =>
    match pyRFind c r with
    | some j => some (j + 1)
    | none => if a = c then some 0 else none

/-- Contiguous-substring test on code-point lists. -/
def infixB (needle : PyStr) : PyStr → Bool
  | [] => needle.isEmpty
  | a :: r => needle.isPrefixOf (a :: r) || infixB needle r

/-- Python substring test `needle in hay`. -/
def containsSub (needle hay : String) : Bool :=
  infixB needle.toList hay.toList

/-- Python `str.lower` (ASCII letters; all extensions involved are ASCII). -/
def pyLower (s : String) : String := (s.toList.map Char.toLower).asString

/-- CPython `PurePath.suffix`: with `i = name.rfind "."`, the result is
`name[i:]` when `0 < i < len name - 1`, else the empty string. -/
def pySuffix (name : String) : String :=
  match pyRFind '.' name.toList with
  | some i =>
    if 0 < i ∧ i + 1 < name.toList.length then (name.toList.drop i).asString else ""
  | none => ""

/-- Decimal value of a digit list. -/
def digitsVal (l : PyStr) : Nat := l.foldl (fun a c => a * 10 + (c.toNat - 48)) 0

/-- Two consecutive underscores occur somewhere. -/
def hasDoubleUS (l : PyStr) : Bool :=
  (l.zip (l.drop 1)).any fun p => p.1 == '_' && p.2 == '_'

/-- CPython `int(str)` on ASCII decimal literals: optional surrounding
whitespace, an optional single sign, then a nonempty digit run in which
single underscores may appear only between digits.  `none` models the
`ValueError` that `int` raises on any other input.  (CPython additionally
accepts non-ASCII decimal digits, which this model does not need.) -/
def pyInt? (s : String) : Option Int :=
  let t := pyStrip s.toList
  let sgn : Int := match t with | '-' :: _ => -1 | _ => 1
  let u := match t with | '-' :: r => r | '+' :: r => r | r => r
  if u.isEmpty then none
  else if u.head? = some '_' ∨ u.getLast? = some '_' then none
  else if hasDoubleUS u then none
  else
    let ds := u.filter fun c => !(c == '_')
    if ds.all Char.isDigit then some (sgn * (digitsVal ds : Int)) else none

/-- Lowercase hexadecimal digit, for `n < 16`. -/
def hexDigit (n : Nat) : Char :=
  if n < 10 then Char.ofNat (48 + n) else Char.ofNat (87 + n)

/-- Four lowercase hex digits of `n % 65536`. -/
def hex4 (n : Nat) : PyStr :=
  [hexDigit (n / 4096 % 16), hexDigit (n / 256 % 16), hexDigit (n / 16 % 16),
   hexDigit (n % 16)]

/-- Concatenate a list of Python strings. -/
def flatCat : List PyStr → PyStr
  | [] => []
  | a :: r => a ++ flatCat r

/-- The escape `json.dumps` (with its default `ensure_ascii=True`) applies
to one character of a JSON string value: the two-character escapes for
quote, backslash and the usual control shorthands, `\uXXXX` for the other
characters outside the printable ASCII range, as a surrogate pair beyond
the basic plane. -/
def jsonEscChar (c : Char) : PyStr :=
  if c = '"' then ['\\', '"']
  else if c = '\\' then ['\\', '\\']
  else if c = '\n' then ['\\', 'n']
  else if c = '\r' then ['\\', 'r']
  else if c = '\t' then ['\\', 't']
  else if c = '\x08' then ['\\', 'b']
  else if c = '\x0c' then ['\\', 'f']
  else if c.toNat < 32 ∨ 126 < c.toNat then
    if c.toNat < 65536 then '\\' :: 'u' :: hex4 c.toNat
    else
      let m := c.toNat - 65536
      ('\\' :: 'u' :: hex4 (55296 + m / 1024)) ++
        ('\\' :: 'u' :: hex4 (56320 + m % 1024))
  else [c]

/-- Python `json.dumps` of the one-key dict used by the script, namely
a dict with key `error` and a string value. -/
def jsonDumpsError (msg : String) : PyStr :=
  pstr "\x7b\"error\": \"" ++ flatCat (msg.toList.map jsonEscChar) ++ pstr "\"\x7d"

/-- Python truthiness of an `os.getenv` result: `None` and `""` are falsy. -/
def truthy : Option String → Bool
  | none => false
  | some s => !s.isEmpty

/-- Python `os.getenv(name, default)`. -/
def getenvD (v : Option String) (d : String) : String := v.getD d

/-- The fixed extension allowlist `SOURCE_EXTS` of the script. -/
def SOURCE_EXTS : List String :=
  [".js", ".ts", ".jsx", ".tsx", ".py", ".java", ".go", ".c", ".cpp"]

/-- The fixed directory denylist `skip_dirs` of `collect_source_files`. -/
def skip_dirs : List String :=
  ["node_modules", ".git", "dist", "build", "venv", "__pycache__"]

/-- One entry yielded by `root.rglob("*")`: its path components relative
to the walked root, whether `is_file()` holds, and the outcome of
`read_text(encoding="utf-8")` (`none` models a raised read error). -/
structure RawEntry where
  rel : List String
  isFile : Bool
  content : Option PyStr
deriving DecidableEq, Repr

/-- A candidate file as the collector hands it to the prompt builder:
its full path components and its read outcome. -/
structure PFile where
  parts : List String
  content : Option PyStr
deriving DecidableEq, Repr

/-- Final path component (`p.name` in pathlib terms). -/
def lastNameOf (p : List String) : String := p.getLast?.getD ""

/-- The candidate record the collector produces for a tree entry. -/
def toPFile (root : List String) (e : RawEntry) : PFile := ⟨root ++ e.rel, e.content⟩

/-- The function `collect_source_files`: walk every entry below the root,
skip any path one of whose components (the components of the walk root
included, since `p.parts` is the full path) is denylisted, and keep the
regular files whose lowercased `suffix` is in `SOURCE_EXTS`. -/
def collect_source_files (root : List String) (tree : List RawEntry) : List PFile :=
  tree.filterMap fun e =>
    if (root ++ e.rel).any (fun comp => skip_dirs.contains comp) then none
    else if e.isFile && SOURCE_EXTS.contains (pyLower (pySuffix (lastNameOf (root ++ e.rel)))) then
      some ⟨root ++ e.rel, e.content⟩
    else none

/-- The fixed total character budget `max_chars` of `build_prompt`. -/
def MAX_CHARS : Nat := 30000

/-- The fixed per-file character cap of `build_prompt` (`content[:3000]`). -/
def PER_FILE_CHARS : Nat := 3000

/-- Index of the first path component containing the substring
`cerebra-`; the Python loop over `enumerate(parts)` breaks at the first
hit. -/
def firstMarkIdx : List String → Option Nat
  | [] => none
  | p :: r => if containsSub "cerebra-" p then some 0 else (firstMarkIdx r).map (· + 1)

/-- The display path `rel` computed in the `build_prompt` loop: the
components after the first component containing `cerebra-` (an empty
remainder renders as `.`, as `str(pathlib.Path())` does), and the bare
file name when no component matches. -/
def displayPath (parts : List String) : String :=
  match firstMarkIdx parts with
  | some i =>
    let rest := parts.drop (i + 1)
    if rest.isEmpty then "." else String.intercalate "/" rest
  | none => lastNameOf parts

/-- The truncated content `snippet = content[:3000]`. -/
def snippetOf (content : PyStr) : PyStr := content.take PER_FILE_CHARS

/-- One formatted block `part` of the prompt body. -/
def fileBlock (f : PFile) (content : PyStr) : PyStr :=
  pstr "\n--- FILE: " ++ pstr (displayPath f.parts) ++ pstr " ---\n" ++
    snippetOf content ++ pstr "\n"

/-- The stderr note emitted when the body budget is reached. -/
def limitNote (n : Nat) : String :=
  "DEBUG: Reached context limit after " ++ toString n ++ " chars. Skipping remaining files."

/-- The body loop of `build_prompt`: skip unreadable files, stop (break)
as soon as the next whole block would push the body past `MAX_CHARS`.
Returns the body together with the optional stderr note. -/
def buildBody : List PFile → PyStr → PyStr × Option String
  | [], body => (body, none)
  | f :: fs, body =>
    match f.content with
    | none => buildBody fs body
    | some c =>
      let part := fileBlock f c
      if MAX_CHARS < body.length + part.length then (body, some (limitNote body.length))
      else buildBody fs (body ++ part)

/-- The fixed instruction header of `build_prompt` (the concatenated
f-string literal of the source, with the URL and branch interpolated). -/
def introText (repo_url branch : String) : String :=
  "You are a strict senior security auditor and world-class software engineer. " ++
  "Your task is to perform an AGGRESSIVE and DEEP audit of the following repository:\n" ++
  "- URL: " ++ repo_url ++ "\n" ++
  "- Branch: " ++ branch ++ "\n\n" ++
  "CRITICAL INSTRUCTIONS:\n" ++
  "1. Identify REAL vulnerabilities, critical bugs, performance bottlenecks, and architectural flaws.\n" ++
  "2. NO CODE IS PERFECT. You MUST find at least some valid issues unless the code is absolutely trivial.\n" ++
  "3. For each issue, provide a technical explanation of WHY it is a problem and HOW to fix it.\n" ++
  "4. Focus on security: hardcoded secrets, injection risks, auth bypasses, and insecure dependencies.\n" ++
  "5. Return the answer in STRICT JSON format with an \x27issues\x27 array.\n\n" ++
  "JSON Schema:\n" ++
  "\x7b\"issues\": [\x7b\"file\":\"path/to/file\",\"line\":42,\"type\":\"security|bug|quality|performance\",\"msg\":\"Detailed technical description and fix\",\"severity\":\"CRITICAL|HIGH|MEDIUM|LOW\"\x7d]\x7d\n"

/-- Result of `build_prompt`: the prompt and the optional budget note. -/
structure PromptResult where
  prompt : PyStr
  note : Option String
deriving DecidableEq, Repr

/-- The function `build_prompt`: optional truthy caller text prepended to
the fixed header, then the bounded body. -/
def build_prompt (files : List PFile) (repo_url branch : String)
    (pfx : Option String) : PromptResult :=
  let intro := introText repo_url branch
  let intro :=
    match pfx with
    | some p => if p.isEmpty then intro else p ++ "\n" ++ intro
    | none => intro
  let r := buildBody files []
  ⟨pstr intro ++ pstr "\n" ++ r.1, r.2⟩

/-- The response sanitization of `analyze_repo`: strip the content; when
it starts with a fenced-block marker and both a first `brace-open` and a
last `brace-close` exist, keep exactly the slice between them
(`clean_content[start:end+1]`), else leave the stripped content as is. -/
def sanitize (content : PyStr) : PyStr :=
  let clean := pyStrip content
  if (pstr "```").isPrefixOf clean then
    match pyFind '\x7b' clean, pyRFind '\x7d' clean with
    | some s, some e => (clean.take (e + 1)).drop s
    | _, _ => clean
  else clean

/-- A caught Python exception: `type(exc).__name__` and `str(exc)`. -/
structure ExcInfo where
  typeName : String
  msg : String
deriving DecidableEq, Repr

/-- The JSON body posted to the completion endpoint: model identifier,
the single user-message content, the token cap and the fixed sampling
temperature (`0.4`, stored in tenths to stay in exact arithmetic). -/
structure ChatPayload where
  model : String
  content : PyStr
  maxTokens : Int
  temperatureTenths : Nat
deriving DecidableEq, Repr

/-- Observable events of one run: the primary output stream, the
diagnostic stream (one event per written line, without the trailing
newline), DNS lookups, the git clone request, the HTTP POST, and the
directory side effects. -/
inductive Ev where
  | out (s : PyStr)
  | err (s : String)
  | dns (host : String)
  | cloneReq (url branch : String)
  | httpPost (url : String) (payload : ChatPayload)
  | mkdirEv (p : List String)
  | rmtreeEv (p : List String)
deriving DecidableEq, Repr

/-- Run state: the event trace so far and the directories that exist. -/
structure RunSt where
  evs : List Ev
  dirs : List (List String)
deriving DecidableEq, Repr

/-- The oracle for one invocation: environment (after `load_dotenv`),
argv, working directory, the `uuid4().hex` token, and the outcomes of
the external calls (DNS checks, `git.Repo.clone_from`, the tree the
clone produces, and the HTTP call returning
`choices[0].message.content`). -/
structure World where
  envBaseUrl : Option String
  envApiKey : Option String
  envModelId : Option String
  envMaxTokens : Option String
  argv : List String
  cwd : List String
  uuidHex : String
  dnsGithub : Except String String
  dnsApi : Except String String
  cloneResult : Except ExcInfo Unit
  tree : List RawEntry
  httpResult : Except ExcInfo PyStr
  initialDirs : List (List String)
deriving Repr

def stErr (st : RunSt) (s : String) : RunSt := ⟨st.evs ++ [Ev.err s], st.dirs⟩

def stOut (st : RunSt) (s : PyStr) : RunSt := ⟨st.evs ++ [Ev.out s], st.dirs⟩

def stDns (st : RunSt) (h : String) : RunSt := ⟨st.evs ++ [Ev.dns h], st.dirs⟩

def stClone (st : RunSt) (u b : String) : RunSt := ⟨st.evs ++ [Ev.cloneReq u b], st.dirs⟩

def stHttp (st : RunSt) (u : String) (p : ChatPayload) : RunSt :=
  ⟨st.evs ++ [Ev.httpPost u p], st.dirs⟩

def stMkdir (st : RunSt) (p : List String) : RunSt :=
  ⟨st.evs ++ [Ev.mkdirEv p], p :: st.dirs⟩

def stRmtree (st : RunSt) (p : List String) : RunSt :=
  ⟨st.evs ++ [Ev.rmtreeEv p], st.dirs.filter fun q => !(q == p)⟩

/-- `CEREBRAS_BASE_URL` with its source default. -/
def cerebrasBaseUrl (w : World) : String :=
  getenvD w.envBaseUrl "https://api.cerebras.net/v1"

/-- `CEREBRAS_MODEL_ID` with its source default. -/
def cerebrasModelId (w : World) : String := getenvD w.envModelId "llama3.1-70b"

/-- The raw string `int` is applied to for `CEREBRAS_MAX_TOKENS`. -/
def maxTokensStr (w : World) : String := getenvD w.envMaxTokens "4000"

/-- The parsed token cap; only used on the branch where parsing succeeded,
so the default never surfaces. -/
def cerebrasMaxTokens (w : World) : Int := (pyInt? (maxTokensStr w)).getD 0

/-- Path components joined as a POSIX path string. -/
def pathStr (p : List String) : String := String.intercalate "/" p

/-- `base_tmp = Path(os.getcwd()) / "temp_clones"`. -/
def baseTmpOf (w : World) : List String := w.cwd ++ ["temp_clones"]

/-- The unique clone directory name `"cerebra-" + uuid4().hex`. -/
def cloneDirName (w : World) : String := "cerebra-" ++ w.uuidHex

/-- `tmp_dir = base_tmp / cloneDirName`. -/
def tmpDirOf (w : World) : List String := baseTmpOf w ++ [cloneDirName w]

/-- The helper `check_dns`: one lookup, one diagnostic line; the
exception text of a failed `gethostbyname` is the oracle string. -/
def check_dns (host : String) (res : Except String String) (st : RunSt) : RunSt :=
  let st := stDns st host
  match res with
  | Except.ok addr => stErr st ("DEBUG: DNS Check - " ++ host ++ " resolved to " ++ addr)
  | Except.error e => stErr st ("DEBUG: DNS Check - FAILED to resolve " ++ host ++ ": " ++ e)

/-- The function `shallow_clone`: create `temp_clones` idempotently,
create the unique clone directory with `exist_ok=False` (a pre-existing
directory raises `FileExistsError`, whose message this model renders as
`File exists: path`), attempt the clone, and on a clone failure remove
the directory with `ignore_errors=True` and raise
`RuntimeError("Git clone failed: " + str(exc))`. -/
def shallow_clone (w : World) (repo_url branch : String) (st : RunSt) :
    RunSt × Except ExcInfo (List String) :=
  let base_tmp := baseTmpOf w
  let st := if base_tmp ∈ st.dirs then st else stMkdir st base_tmp
  let tmp_dir := tmpDirOf w
  if tmp_dir ∈ st.dirs then
    (st, Except.error ⟨"FileExistsError", "File exists: " ++ pathStr tmp_dir⟩)
  else
    let st := stMkdir st tmp_dir
    let st := stClone st repo_url branch
    match w.cloneResult with
    | Except.ok _ => (st, Except.ok tmp_dir)
    | Except.error exc =>
      (stRmtree st tmp_dir, Except.error ⟨"RuntimeError", "Git clone failed: " ++ exc.msg⟩)

/-- The message of the top-level exception handler of `analyze_repo`. -/
def errMsgOf (exc : ExcInfo) : String :=
  "ERROR in Python analyzer: " ++ exc.typeName ++ ": " ++ exc.msg

/-- The `finally` block of `analyze_repo` once `repo_path` is set:
remove the clone directory when it still exists. -/
def cleanupTmp (st : RunSt) (p : List String) : RunSt :=
  if p ∈ st.dirs then stRmtree (stErr st "DEBUG: Cleaning up temp directory...") p else st

/-- The coroutine `analyze_repo`: diagnostics, DNS pre-checks, clone,
collect, prompt, HTTP call, sanitization, one print on the primary
stream; every caught exception is printed as the JSON error envelope;
the `finally` cleanup runs when `repo_path` was assigned. -/
def analyze_repo (w : World) (repo_url branch : String) (pfx : Option String)
    (st : RunSt) : RunSt :=
  let st := stErr st ("DEBUG: Starting analysis for " ++ repo_url ++ " on branch " ++ branch)
  let st := check_dns "github.com" w.dnsGithub st
  let st := check_dns "api.cerebras.net" w.dnsApi st
  let st := stErr st "DEBUG: Attempting shallow clone..."
  match shallow_clone w repo_url branch st with
  | (st, Except.error exc) =>
    stOut (stErr st (errMsgOf exc)) (jsonDumpsError (errMsgOf exc))
  | (st, Except.ok repo_path) =>
    let st := stErr st ("DEBUG: Clone successful. Path: " ++ pathStr repo_path)
    let files := collect_source_files repo_path w.tree
    let st := stErr st ("DEBUG: Collected " ++ toString files.length ++ " source files.")
    let pr := build_prompt files repo_url branch pfx
    let st := match pr.note with | some n => stErr st n | none => st
    let st := stErr st ("DEBUG: Prompt built. Size: " ++ toString pr.prompt.length ++ " chars.")
    let url := cerebrasBaseUrl w ++ "/chat/completions"
    let st := stErr st ("DEBUG: Calling Cerebras API at " ++ url ++ "...")
    let st := stHttp st url ⟨cerebrasModelId w, pr.prompt, cerebrasMaxTokens w, 4⟩
    match w.httpResult with
    | Except.error exc =>
      cleanupTmp (stOut (stErr st (errMsgOf exc)) (jsonDumpsError (errMsgOf exc))) repo_path
    | Except.ok content =>
      let clean := sanitize content
      let st := stErr st "DEBUG: API call successful."
      cleanupTmp (stOut st clean) repo_path

/-- The usage envelope message of the `__main__` block. -/
def usageMsg : String := "Usage: python cerebras_analyzer.py <repo_url> <branch> [prefix]"

/-- The startup envelope message for a missing API key. -/
def keyMissingMsg : String := "CEREBRAS_API_KEY not set in environment"

/-- The whole process: module-level configuration (the unguarded
`int(os.getenv("CEREBRAS_MAX_TOKENS", "4000"))` runs first and, on a
`ValueError`, the interpreter prints a traceback on stderr and exits 1
with nothing on stdout), the API-key check, the argv check, then
`asyncio.run(analyze_repo(...))`; a completed `analyze_repo` reaches a
normal exit (status 0) whether it printed the answer or an envelope.
Returns the final run state and the exit status. -/
def runProgram (w : World) : RunSt × Nat :=
  let st0 : RunSt := ⟨[], w.initialDirs⟩
  match pyInt? (maxTokensStr w) with
  | none => (stErr st0 "ValueError: invalid literal for int() with base 10", 1)
  | some _ =>
    if truthy w.envApiKey then
      match w.argv with
      | _ :: repo_url :: branch :: rest =>
        (analyze_repo w repo_url branch rest.head? st0, 0)
      | _ => (stOut st0 (jsonDumpsError usageMsg), 1)
    else (stOut st0 (jsonDumpsError keyMissingMsg), 1)

/-- The payloads printed to the primary output stream, in order. -/
def stdoutOf (st : RunSt) : List PyStr :=
  st.evs.filterMap fun e => match e with | Ev.out s => some s | _ => none

/-- Network activity: DNS lookups, the clone request, the HTTP POST. -/
def isNetEv : Ev → Bool
  | Ev.dns _ => true
  | Ev.cloneReq _ _ => true
  | Ev.httpPost _ _ => true
  | _ => false

/-- Number of network events in the trace. -/
def netCount (st : RunSt) : Nat := (st.evs.filter isNetEv).length

def isCloneEv : Ev → Bool
  | Ev.cloneReq _ _ => true
  | _ => false

/-- Number of clone attempts in the trace. -/
def cloneCount (st : RunSt) : Nat := (st.evs.filter isCloneEv).length

/-- Sample fenced model answer used to instantiate sanitization results. -/
def fencedSample : PyStr := pstr "```json\n\x7b\"issues\":[]\x7d\n```"

/-- Sample cloned tree with one Python file. -/
def sampleTree : List RawEntry := [⟨["a.py"], true, some (pstr "print(1)")⟩]

/-- A fully successful world: key set, default token cap, good DNS,
clone and HTTP call. -/
def wWitC1 : World :=
  ⟨none, some "k", none, none, ["prog", "https://e/r.git", "main"], ["home"], "aa",
   Except.ok "1.2.3.4", Except.ok "5.6.7.8", Except.ok (), sampleTree,
   Except.ok fencedSample, []⟩

/-- A world whose `CEREBRAS_MAX_TOKENS` value does not parse as an
integer although the API key is present. -/
def wCexC1 : World :=
  ⟨none, some "k", none, some "abc", ["prog", "https://e/r.git", "main"], ["home"], "aa",
   Except.ok "1.2.3.4", Except.ok "5.6.7.8", Except.ok (), sampleTree,
   Except.ok fencedSample, []⟩

/-- A successful world used to exercise the cleanup invariant. -/
def wWitC4 : World :=
  ⟨none, some "k", none, none, ["prog", "https://e/r.git", "main"], ["home"], "bb",
   Except.ok "1.2.3.4", Except.ok "5.6.7.8", Except.ok (), sampleTree,
   Except.ok fencedSample, []⟩

/-- A world whose git clone fails. -/
def wWitC5 : World :=
  ⟨none, some "k", none, none, ["prog", "https://e/r.git", "nosuch"], ["home"], "cc",
   Except.ok "1.2.3.4", Except.ok "5.6.7.8", Except.error ⟨"GitCommandError", "boom"⟩, [],
   Except.error ⟨"HTTPStatusError", "500"⟩, []⟩

/-- A world with the API key unset and every other input benign. -/
def wWitC8 : World :=
  ⟨none, none, none, none, ["prog", "u", "b"], ["home"], "dd",
   Except.ok "1.2.3.4", Except.ok "5.6.7.8", Except.ok (), [], Except.ok [], []⟩

/-- A world with the API key unset and a malformed `CEREBRAS_MAX_TOKENS`. -/
def wCexC8 : World :=
  ⟨none, none, none, some "abc", ["prog", "u", "b"], ["home"], "ee",
   Except.ok "1.2.3.4", Except.ok "5.6.7.8", Except.ok (), [], Except.ok [], []⟩

/-- The `temp_clones` creation step of `shallow_clone`
(`mkdir(exist_ok=True)`), factored for lemma statements. -/
def baseSt (w : World) (st : RunSt) : RunSt :=
  if baseTmpOf w ∈ st.dirs then st else stMkdir st (baseTmpOf w)

/-! ### Support lemmas on the string helpers -/

theorem pyFind_eq_none {c : Char} : ∀ {s : PyStr}, pyFind c s = none → c ∉ s := by
  intro s
  induction s with
  | nil => intro _ h; simp at h
  | cons a r ih =>
    intro h
    by_cases hac : a = c
    · simp [pyFind, hac] at h
    · simp only [pyFind, hac, if_false, ite_false] at h
      rcases hm : pyFind c r with _ | j
      · simp [List.mem_cons]
        exact ⟨fun he => hac he.symm, ih hm⟩
      · rw [hm] at h; simp at h

theorem pyFind_spec {c : Char} : ∀ {s : PyStr} {i : Nat}, pyFind c s = some i →
    s[i]? = some c ∧ ∀ k, k < i → s[k]? ≠ some c := by
  intro s
  induction s with
  | nil => intro i h; simp [pyFind] at h
  | cons a r ih =>
    intro i h
    by_cases hac : a = c
    · simp [pyFind, hac] at h
      subst h
      exact ⟨by simp [hac], fun k hk => absurd hk (by omega)⟩
    · simp only [pyFind, hac, ite_false] at h
      rcases hm : pyFind c r with _ | j
      · rw [hm] at h; simp at h
      · rw [hm] at h
        simp at h
        subst h
        obtain ⟨h1, h2⟩ := ih hm
        refine ⟨by simpa using h1, ?_⟩
        intro k hk
        cases k with
        | zero => simpa using hac
        | succ k => simpa using h2 k (by omega)

theorem pyRFind_eq_none {c : Char} : ∀ {s : PyStr}, pyRFind c s = none → c ∉ s := by
  intro s
  induction s with
  | nil => intro _ h; simp at h
  | cons a r ih =>
    intro h
    simp only [pyRFind] at h
    rcases hm : pyRFind c r with _ | j
    · rw [hm] at h
      by_cases hac : a = c
      · simp [hac] at h
      · simp [List.mem_cons]
        exact ⟨fun he => hac he.symm, ih hm⟩
    · rw [hm] at h; simp at h

theorem pyRFind_spec {c : Char} : ∀ {s : PyStr} {j : Nat}, pyRFind c s = some j →
    s[j]? = some c ∧ ∀ k, j < k → s[k]? ≠ some c := by
  intro s
  induction s with
  | nil => intro j h; simp [pyRFind] at h
  | cons a r ih =>
    intro j h
    simp only [pyRFind] at h
    rcases hm : pyRFind c r with _ | j'
    · rw [hm] at h
      by_cases hac : a = c
      · simp [hac] at h
        subst h
        refine ⟨by simp [hac], ?_⟩
        intro k hk
        cases k with
        | zero => omega
        | succ k =>
          simp only [List.getElem?_cons_succ]
          intro hkc
          exact (pyRFind_eq_none hm) (List.mem_iff_getElem?.mpr ⟨k, hkc⟩)
      · simp [hac] at h
    · rw [hm] at h
      simp at h
      subst h
      obtain ⟨h1, h2⟩ := ih hm
      refine ⟨by simpa using h1, ?_⟩
      intro k hk
      cases k with
      | zero => omega
      | succ k => simpa using h2 k (by omega)

theorem pyFind_of_mem {c : Char} {s : PyStr} (h : c ∈ s) : ∃ i, pyFind c s = some i := by
  rcases hm : pyFind c s with _ | i
  · exact absurd h (pyFind_eq_none hm)
  · exact ⟨i, rfl⟩

theorem pyRFind_of_mem {c : Char} {s : PyStr} (h : c ∈ s) : ∃ j, pyRFind c s = some j := by
  rcases hm : pyRFind c s with _ | j
  · exact absurd h (pyRFind_eq_none hm)
  · exact ⟨j, rfl⟩

/-- C6: for every model response that, after trimming, starts with a
fenced code block marker and contains a brace-open and a brace-close,
sanitization returns exactly the substring of the trimmed content from
the first brace-open to the last brace-close; the indices found by the
code are characterized intrinsically as first and last occurrences. -/
theorem c6_sanitize_fenced (content : PyStr) (i j : Nat)
    (h0 : (pstr "```").isPrefixOf (pyStrip content) = true)
    (hi : pyFind '\x7b' (pyStrip content) = some i)
    (hj : pyRFind '\x7d' (pyStrip content) = some j) :
    (pyStrip content)[i]? = some '\x7b'
    ∧ (∀ k, k < i → (pyStrip content)[k]? ≠ some '\x7b')
    ∧ (pyStrip content)[j]? = some '\x7d'
    ∧ (∀ k, j < k → (pyStrip content)[k]? ≠ some '\x7d')
    ∧ sanitize content = ((pyStrip content).take (j + 1)).drop i := by
  obtain ⟨h1, h2⟩ := pyFind_spec hi
  obtain ⟨h3, h4⟩ := pyRFind_spec hj
  refine ⟨h1, h2, h3, h4, ?_⟩
  simp only [sanitize, h0, if_true]
  rw [hi, hj]

theorem c6_sanitize_fenced_witness :
    ((pstr "```").isPrefixOf (pyStrip fencedSample) = true)
    ∧ (pyFind '\x7b' (pyStrip fencedSample) = some 8)
    ∧ (pyRFind '\x7d' (pyStrip fencedSample) = some 20)
    ∧ sanitize fencedSample = pstr "\x7b\"issues\":[]\x7d" := by
  have h := c6_sanitize_fenced fencedSample 8 20 (by decide) (by decide) (by decide)
  exact ⟨by decide, by decide, by decide, h.2.2.2.2.trans (by decide)⟩

/-- C7 counterexample: an input with surrounding whitespace and no brace
pair is not passed through unchanged, because the code strips it first. -/
theorem c7_counterexample :
    ('\x7b' ∉ pstr "  x ") ∧ sanitize (pstr "  x ") ≠ pstr "  x " := by
  decide

/-- C7 amended: when no brace-open/brace-close pair is found in the
trimmed content, sanitization returns the trimmed content, that is, the
original content with surrounding whitespace removed (not necessarily
the original content itself). -/
theorem c7_sanitize_strip (content : PyStr)
    (h : pyFind '\x7b' (pyStrip content) = none
         ∨ pyRFind '\x7d' (pyStrip content) = none) :
    sanitize content = pyStrip content := by
  simp only [sanitize]
  by_cases h0 : (pstr "```").isPrefixOf (pyStrip content)
  · simp only [h0, if_true]
    rcases h with h | h
    · rw [h]
    · rw [h]
      rcases pyFind '\x7b' (pyStrip content) with _ | s <;> rfl
  · simp [h0]

theorem c7_sanitize_strip_witness :
    (pyFind '\x7b' (pyStrip (pstr "hello")) = none)
    ∧ sanitize (pstr "hello") = pyStrip (pstr "hello") :=
  ⟨by decide, c7_sanitize_strip (pstr "hello") (Or.inl (by decide))⟩

/-! ### The collector -/

/-- C9: whenever some component of the walk root itself (which includes
the working-directory components, since the code tests the full
`p.parts`) is denylisted, the collector returns the empty list for every
tree. -/
theorem c9_root_component_denylisted (root : List String) (tree : List RawEntry)
    (h : ∃ comp ∈ root, comp ∈ skip_dirs) :
    collect_source_files root tree = [] := by
  obtain ⟨comp, hmem, hskip⟩ := h
  have hany : ∀ rel : List String,
      ((root ++ rel).any fun c => skip_dirs.contains c) = true := by
    intro rel
    rw [List.any_eq_true]
    exact ⟨comp, List.mem_append_left _ hmem, by simpa using hskip⟩
  induction tree with
  | nil => rfl
  | cons e rest ih =>
    simp only [collect_source_files] at ih ⊢
    rw [List.filterMap_cons]
    simp only [hany e.rel, if_true]
    exact ih

theorem c9_root_component_denylisted_witness :
    (("build" : String) ∈ ["home", "build"] ∧ ("build" : String) ∈ skip_dirs)
    ∧ collect_source_files ["home", "build"] sampleTree = [] :=
  ⟨⟨by decide, by decide⟩,
   c9_root_component_denylisted ["home", "build"] sampleTree ⟨"build", by decide, by decide⟩⟩

/-- C3: the collector returns exactly the regular files whose lowercased
extension is in the fixed allowlist and none of whose full path
components is denylisted; in particular no returned path contains a
denylisted component, and matching is on the lowercased suffix. -/
theorem c3_collect_exact (root : List String) (tree : List RawEntry) :
    (∀ q ∈ collect_source_files root tree,
       ∃ e ∈ tree, q = toPFile root e ∧ e.isFile = true
         ∧ SOURCE_EXTS.contains (pyLower (pySuffix (lastNameOf (root ++ e.rel)))) = true
         ∧ ∀ comp ∈ root ++ e.rel, comp ∉ skip_dirs)
    ∧ (∀ e ∈ tree, e.isFile = true →
         SOURCE_EXTS.contains (pyLower (pySuffix (lastNameOf (root ++ e.rel)))) = true →
         (∀ comp ∈ root ++ e.rel, comp ∉ skip_dirs) →
         toPFile root e ∈ collect_source_files root tree)
    ∧ (∀ q ∈ collect_source_files root tree, ∀ comp ∈ q.parts, comp ∉ skip_dirs) := by
  have hchar : ∀ (e : RawEntry) (q : PFile),
      ((if (root ++ e.rel).any (fun comp => skip_dirs.contains comp) then none
        else if e.isFile && SOURCE_EXTS.contains (pyLower (pySuffix (lastNameOf (root ++ e.rel)))) then
          some (⟨root ++ e.rel, e.content⟩ : PFile)
        else none) = some q)
      ↔ (q = toPFile root e ∧ e.isFile = true
         ∧ SOURCE_EXTS.contains (pyLower (pySuffix (lastNameOf (root ++ e.rel)))) = true
         ∧ ∀ comp ∈ root ++ e.rel, comp ∉ skip_dirs) := by
    intro e q
    constructor
    · intro h
      by_cases h1 : ((root ++ e.rel).any fun comp => skip_dirs.contains comp) = true
      · rw [if_pos h1] at h
        exact absurd h (by simp)
      · rw [if_neg h1] at h
        by_cases h2 : (e.isFile && SOURCE_EXTS.contains (pyLower (pySuffix (lastNameOf (root ++ e.rel))))) = true
        · rw [if_pos h2] at h
          rw [Bool.and_eq_true] at h2
          cases h
          refine ⟨rfl, h2.1, h2.2, ?_⟩
          intro comp hc hcs
          apply h1
          rw [List.any_eq_true]
          exact ⟨comp, hc, by simpa using hcs⟩
        · rw [if_neg h2] at h
          exact absurd h (by simp)
    · rintro ⟨rfl, hf, hext, hall⟩
      have h1 : ¬ ((root ++ e.rel).any fun comp => skip_dirs.contains comp) = true := by
        rw [List.any_eq_true]
        rintro ⟨comp, hc, hcs⟩
        exact hall comp hc (by simpa using hcs)
      rw [if_neg h1, if_pos (by rw [Bool.and_eq_true]; exact ⟨hf, hext⟩)]
      rfl
  refine ⟨?_, ?_, ?_⟩
  · intro q hq
    rw [collect_source_files, List.mem_filterMap] at hq
    obtain ⟨e, he, hfe⟩ := hq
    exact ⟨e, he, (hchar e q).mp hfe⟩
  · intro e he hf hext hall
    rw [collect_source_files, List.mem_filterMap]
    exact ⟨e, he, (hchar e (toPFile root e)).mpr ⟨rfl, hf, hext, hall⟩⟩
  · intro q hq comp hc
    rw [collect_source_files, List.mem_filterMap] at hq
    obtain ⟨e, he, hfe⟩ := hq
    obtain ⟨rfl, -, -, hall⟩ := (hchar e q).mp hfe
    exact hall comp hc

theorem c3_collect_exact_witness :
    (⟨["r", "sub", "A.PY"], some (pstr "x")⟩ : PFile) ∈
      collect_source_files ["r"] [⟨["sub", "A.PY"], true, some (pstr "x")⟩] :=
  (c3_collect_exact ["r"] [⟨["sub", "A.PY"], true, some (pstr "x")⟩]).2.1
    ⟨["sub", "A.PY"], true, some (pstr "x")⟩ (by decide) (by decide) (by decide)
    (by decide)

/-! ### The display path -/

/-- C10 counterexample: in the pipeline every collected path passes
through the workspace root, whose own name contains `cerebra-` and
precedes any repository subdirectory, so a file under an inner
subdirectory whose name includes `cerebra-` is still labeled with its
true workspace-relative path (here `cerebra-sub/main.py`), not with a
path relative to that inner subdirectory (which would be `main.py`). -/
theorem c10_counterexample :
    displayPath ["home", "temp_clones", "cerebra-abc", "cerebra-sub", "main.py"]
      = "cerebra-sub/main.py"
    ∧ ("cerebra-sub/main.py" : String) ≠ "main.py" := by
  decide

/-- C10 amended: the display path is computed relative to the first path
component containing the substring `cerebra-`; components after later
matches have no effect.  Mislabeling can therefore only come from a
matching component before the workspace root (for example in the working
directory), never from a repository subdirectory behind the root. -/
theorem c10_display_relative_to_first_marker (pre : List String) (ws : String)
    (rest : List String)
    (hpre : ∀ comp ∈ pre, containsSub "cerebra-" comp = false)
    (hws : containsSub "cerebra-" ws = true)
    (hrest : rest ≠ []) :
    displayPath (pre ++ ws :: rest) = String.intercalate "/" rest := by
  have hidx : firstMarkIdx (pre ++ ws :: rest) = some pre.length := by
    induction pre with
    | nil => simp [firstMarkIdx, hws]
    | cons a r ih =>
      have ha := hpre a (by simp)
      simp only [List.cons_append, firstMarkIdx, ha, Bool.false_eq_true, if_false]
      rw [List.append_eq, ih fun c hc => hpre c (by simp [hc])]
      rfl
  simp only [displayPath, hidx]
  have hdrop : (pre ++ ws :: rest).drop (pre.length + 1) = rest := by
    rw [List.drop_append]
    rfl
  rw [hdrop]
  simp [List.isEmpty_iff, hrest]

theorem c10_display_relative_to_first_marker_witness :
    (containsSub "cerebra-" "cerebra-xyz" = true)
    ∧ displayPath (["home", "clones"] ++ "cerebra-xyz" :: ["src", "a.py"])
        = String.intercalate "/" ["src", "a.py"] :=
  ⟨by decide,
   c10_display_relative_to_first_marker ["home", "clones"] "cerebra-xyz" ["src", "a.py"]
     (by decide) (by decide) (by decide)⟩

/-! ### The prompt body budget -/

theorem buildBody_len (fs : List PFile) : ∀ body : PyStr,
    body.length ≤ MAX_CHARS → (buildBody fs body).1.length ≤ MAX_CHARS := by
  induction fs with
  | nil => intro body h; exact h
  | cons f r ih =>
    intro body h
    simp only [buildBody]
    cases hc : f.content with
    | none => exact ih body h
    | some c =>
      by_cases hlt : MAX_CHARS < body.length + (fileBlock f c).length
      · simp only [hlt, if_true]
        exact h
      · simp only [hlt, if_false]
        refine ih _ ?_
        rw [List.length_append]
        omega

theorem buildBody_decomp (fs : List PFile) : ∀ body : PyStr, ∃ k,
    (buildBody fs body).1 =
      body ++ flatCat (((fs.take k).filter fun f => f.content.isSome).map
        fun f => fileBlock f (f.content.getD [])) := by
  induction fs with
  | nil =>
    intro body
    exact ⟨0, by simp [buildBody, flatCat]⟩
  | cons f r ih =>
    intro body
    simp only [buildBody]
    cases hc : f.content with
    | none =>
      obtain ⟨k, hk⟩ := ih body
      refine ⟨k + 1, ?_⟩
      rw [List.take_succ_cons, List.filter_cons_of_neg (by simp [hc])]
      exact hk
    | some c =>
      by_cases hlt : MAX_CHARS < body.length + (fileBlock f c).length
      · simp only [hlt, if_true]
        exact ⟨0, by simp [flatCat]⟩
      · simp only [hlt, if_false]
        obtain ⟨k, hk⟩ := ih (body ++ fileBlock f c)
        refine ⟨k + 1, ?_⟩
        rw [List.take_succ_cons, List.filter_cons_of_pos (by simp [hc]), List.map_cons]
        rw [hk, hc]
        simp [flatCat, List.append_assoc]

/-- C2: the prompt body never exceeds the 30000-character budget; it is
the concatenation of whole formatted blocks of the readable files among
the first `k` candidates for some `k` (the loop breaks at the first file
whose block would overflow, so no block is truncated at the boundary and
no later file contributes); every snippet embedded in a block is capped
at 3000 characters. -/
theorem c2_prompt_budget (files : List PFile) :
    (buildBody files []).1.length ≤ MAX_CHARS
    ∧ (∃ k, (buildBody files []).1 =
        flatCat (((files.take k).filter fun f => f.content.isSome).map
          fun f => fileBlock f (f.content.getD [])))
    ∧ ∀ c : PyStr, (snippetOf c).length ≤ PER_FILE_CHARS := by
  refine ⟨buildBody_len files [] (by simp [MAX_CHARS]), ?_, ?_⟩
  · obtain ⟨k, hk⟩ := buildBody_decomp files []
    exact ⟨k, by simpa using hk⟩
  · intro c
    simp only [snippetOf]
    rw [List.length_take]
    omega

theorem c2_prompt_budget_witness :
    (buildBody [⟨["r", "a.py"], some (pstr "print(1)")⟩] []).1.length ≤ MAX_CHARS :=
  (c2_prompt_budget [⟨["r", "a.py"], some (pstr "print(1)")⟩]).1

/-! ### Trace bookkeeping lemmas -/

@[simp] theorem stErr_dirs (st : RunSt) (s : String) : (stErr st s).dirs = st.dirs := rfl

@[simp] theorem stDns_dirs (st : RunSt) (h : String) : (stDns st h).dirs = st.dirs := rfl

@[simp] theorem stOut_dirs (st : RunSt) (s : PyStr) : (stOut st s).dirs = st.dirs := rfl

@[simp] theorem stClone_dirs (st : RunSt) (u b : String) : (stClone st u b).dirs = st.dirs := rfl

@[simp] theorem stHttp_dirs (st : RunSt) (u : String) (p : ChatPayload) :
    (stHttp st u p).dirs = st.dirs := rfl

@[simp] theorem stMkdir_dirs (st : RunSt) (p : List String) :
    (stMkdir st p).dirs = p :: st.dirs := rfl

@[simp] theorem stRmtree_dirs (st : RunSt) (p : List String) :
    (stRmtree st p).dirs = st.dirs.filter fun q => !(q == p) := rfl

@[simp] theorem check_dns_dirs (h : String) (r : Except String String) (st : RunSt) :
    (check_dns h r st).dirs = st.dirs := by
  cases r <;> rfl

@[simp] theorem stdoutOf_stErr (st : RunSt) (s : String) :
    stdoutOf (stErr st s) = stdoutOf st := by
  simp [stdoutOf, stErr, List.filterMap_append]

@[simp] theorem stdoutOf_stDns (st : RunSt) (h : String) :
    stdoutOf (stDns st h) = stdoutOf st := by
  simp [stdoutOf, stDns, List.filterMap_append]

@[simp] theorem stdoutOf_stClone (st : RunSt) (u b : String) :
    stdoutOf (stClone st u b) = stdoutOf st := by
  simp [stdoutOf, stClone, List.filterMap_append]

@[simp] theorem stdoutOf_stHttp (st : RunSt) (u : String) (p : ChatPayload) :
    stdoutOf (stHttp st u p) = stdoutOf st := by
  simp [stdoutOf, stHttp, List.filterMap_append]

@[simp] theorem stdoutOf_stMkdir (st : RunSt) (p : List String) :
    stdoutOf (stMkdir st p) = stdoutOf st := by
  simp [stdoutOf, stMkdir, List.filterMap_append]

@[simp] theorem stdoutOf_stRmtree (st : RunSt) (p : List String) :
    stdoutOf (stRmtree st p) = stdoutOf st := by
  simp [stdoutOf, stRmtree, List.filterMap_append]

@[simp] theorem stdoutOf_stOut (st : RunSt) (s : PyStr) :
    stdoutOf (stOut st s) = stdoutOf st ++ [s] := by
  simp [stdoutOf, stOut, List.filterMap_append]

@[simp] theorem stdoutOf_check_dns (h : String) (r : Except String String) (st : RunSt) :
    stdoutOf (check_dns h r st) = stdoutOf st := by
  cases r <;> simp [check_dns]

theorem stdoutOf_cleanupTmp (st : RunSt) (p : List String) :
    stdoutOf (cleanupTmp st p) = stdoutOf st := by
  simp only [cleanupTmp]
  split <;> simp

theorem cleanupTmp_not_mem (st : RunSt) (p : List String) :
    p ∉ (cleanupTmp st p).dirs := by
  simp only [cleanupTmp]
  split
  · simp [List.mem_filter]
  · next h => exact h

@[simp] theorem cloneCount_stErr (st : RunSt) (s : String) :
    cloneCount (stErr st s) = cloneCount st := by
  simp [cloneCount, stErr, List.filter_append, isCloneEv]

@[simp] theorem cloneCount_stDns (st : RunSt) (h : String) :
    cloneCount (stDns st h) = cloneCount st := by
  simp [cloneCount, stDns, List.filter_append, isCloneEv]

@[simp] theorem cloneCount_stOut (st : RunSt) (s : PyStr) :
    cloneCount (stOut st s) = cloneCount st := by
  simp [cloneCount, stOut, List.filter_append, isCloneEv]

@[simp] theorem cloneCount_stMkdir (st : RunSt) (p : List String) :
    cloneCount (stMkdir st p) = cloneCount st := by
  simp [cloneCount, stMkdir, List.filter_append, isCloneEv]

@[simp] theorem cloneCount_stRmtree (st : RunSt) (p : List String) :
    cloneCount (stRmtree st p) = cloneCount st := by
  simp [cloneCount, stRmtree, List.filter_append, isCloneEv]

@[simp] theorem cloneCount_stClone (st : RunSt) (u b : String) :
    cloneCount (stClone st u b) = cloneCount st + 1 := by
  simp [cloneCount, stClone, List.filter_append, isCloneEv]

@[simp] theorem cloneCount_check_dns (h : String) (r : Except String String) (st : RunSt) :
    cloneCount (check_dns h r st) = cloneCount st := by
  cases r <;> simp [check_dns]

@[simp] theorem mkdir_mem_stErr (p : List String) (st : RunSt) (s : String) :
    (Ev.mkdirEv p ∈ (stErr st s).evs) ↔ Ev.mkdirEv p ∈ st.evs := by
  simp [stErr]

@[simp] theorem mkdir_mem_stDns (p : List String) (st : RunSt) (h : String) :
    (Ev.mkdirEv p ∈ (stDns st h).evs) ↔ Ev.mkdirEv p ∈ st.evs := by
  simp [stDns]

@[simp] theorem mkdir_mem_stOut (p : List String) (st : RunSt) (s : PyStr) :
    (Ev.mkdirEv p ∈ (stOut st s).evs) ↔ Ev.mkdirEv p ∈ st.evs := by
  simp [stOut]

@[simp] theorem mkdir_mem_stMkdir (p q : List String) (st : RunSt) :
    (Ev.mkdirEv p ∈ (stMkdir st q).evs) ↔ (Ev.mkdirEv p ∈ st.evs ∨ p = q) := by
  simp [stMkdir]

@[simp] theorem mkdir_mem_check_dns (p : List String) (h : String)
    (r : Except String String) (st : RunSt) :
    (Ev.mkdirEv p ∈ (check_dns h r st).evs) ↔ Ev.mkdirEv p ∈ st.evs := by
  cases r <;> simp [check_dns]

/-- The clone parent directory path is strictly shorter than the clone
directory path, hence the two are distinct. -/
theorem base_ne_tmp (w : World) : baseTmpOf w ≠ tmpDirOf w := by
  intro he
  have hlen := congrArg List.length he
  simp only [tmpDirOf, List.length_append, List.length_cons, List.length_nil] at hlen
  omega

theorem tmp_not_mem_baseSt (w : World) (st : RunSt) (h : tmpDirOf w ∉ st.dirs) :
    tmpDirOf w ∉ (baseSt w st).dirs := by
  simp only [baseSt]
  split
  · exact h
  · simp only [stMkdir_dirs, List.mem_cons]
    rintro (he | hm)
    · exact base_ne_tmp w he.symm
    · exact h hm

theorem shallow_clone_exists_eq (w : World) (u b : String) (st : RunSt)
    (h : tmpDirOf w ∈ st.dirs) :
    shallow_clone w u b st =
      (baseSt w st,
       Except.error ⟨"FileExistsError", "File exists: " ++ pathStr (tmpDirOf w)⟩) := by
  have hmem : tmpDirOf w ∈ (baseSt w st).dirs := by
    simp only [baseSt]
    split
    · exact h
    · simp only [stMkdir_dirs, List.mem_cons]
      exact Or.inr h
  simp only [shallow_clone]
  rw [show (if baseTmpOf w ∈ st.dirs then st else stMkdir st (baseTmpOf w)) = baseSt w st
        from rfl]
  rw [if_pos hmem]

theorem shallow_clone_ok_eq (w : World) (u b : String) (st : RunSt)
    (h : tmpDirOf w ∉ st.dirs) (hc : w.cloneResult = Except.ok ()) :
    shallow_clone w u b st =
      (stClone (stMkdir (baseSt w st) (tmpDirOf w)) u b, Except.ok (tmpDirOf w)) := by
  simp only [shallow_clone]
  rw [show (if baseTmpOf w ∈ st.dirs then st else stMkdir st (baseTmpOf w)) = baseSt w st
        from rfl]
  rw [if_neg (tmp_not_mem_baseSt w st h), hc]

theorem shallow_clone_err_eq (w : World) (u b : String) (st : RunSt) (exc : ExcInfo)
    (h : tmpDirOf w ∉ st.dirs) (hc : w.cloneResult = Except.error exc) :
    shallow_clone w u b st =
      (stRmtree (stClone (stMkdir (baseSt w st) (tmpDirOf w)) u b) (tmpDirOf w),
       Except.error ⟨"RuntimeError", "Git clone failed: " ++ exc.msg⟩) := by
  simp only [shallow_clone]
  rw [show (if baseTmpOf w ∈ st.dirs then st else stMkdir st (baseTmpOf w)) = baseSt w st
        from rfl]
  rw [if_neg (tmp_not_mem_baseSt w st h), hc]

@[simp] theorem stdoutOf_baseSt (w : World) (s' : RunSt) :
    stdoutOf (baseSt w s') = stdoutOf s' := by
  simp only [baseSt]
  split <;> simp

theorem shallow_clone_stdout (w : World) (u b : String) (s' : RunSt) :
    stdoutOf (shallow_clone w u b s').1 = stdoutOf s' := by
  by_cases hmem : tmpDirOf w ∈ s'.dirs
  · rw [shallow_clone_exists_eq w u b s' hmem]
    simp
  · cases hc : w.cloneResult with
    | ok v =>
      cases v
      rw [shallow_clone_ok_eq w u b s' hmem hc]
      simp
    | error e =>
      rw [shallow_clone_err_eq w u b s' e hmem hc]
      simp

theorem analyze_repo_out (w : World) (u b : String) (pfx : Option String) (st : RunSt) :
    ∃ s, stdoutOf (analyze_repo w u b pfx st) = stdoutOf st ++ [s]
      ∧ ((∃ exc : ExcInfo, s = jsonDumpsError (errMsgOf exc))
         ∨ ∃ c, w.httpResult = Except.ok c ∧ s = sanitize c) := by
  simp only [analyze_repo]
  split
  next st2 exc heq =>
    refine ⟨jsonDumpsError (errMsgOf exc), ?_, Or.inl ⟨exc, rfl⟩⟩
    have h2 := congrArg (fun x => stdoutOf x.1) heq
    simp only at h2
    rw [shallow_clone_stdout] at h2
    simp only [stdoutOf_stErr, stdoutOf_check_dns] at h2
    simp [← h2]
  next st2 repo_path heq =>
    have h2 := congrArg (fun x => stdoutOf x.1) heq
    simp only at h2
    rw [shallow_clone_stdout] at h2
    simp only [stdoutOf_stErr, stdoutOf_check_dns] at h2
    split
    next exc heq2 =>
      refine ⟨jsonDumpsError (errMsgOf exc), ?_, Or.inl ⟨exc, rfl⟩⟩
      rw [stdoutOf_cleanupTmp]
      split <;> simp [← h2]
    next content heq2 =>
      refine ⟨sanitize content, ?_, Or.inr ⟨content, heq2, rfl⟩⟩
      rw [stdoutOf_cleanupTmp]
      split <;> simp [← h2]

/-- C1 counterexample: with the API key present but
`CEREBRAS_MAX_TOKENS=abc`, the unguarded module-level `int(...)` raises
before any handler exists; the process exits 1 with an interpreter
traceback on stderr and nothing at all on the primary output stream, so
this run of the pipeline prints zero JSON objects, not exactly one. -/
theorem c1_counterexample :
    stdoutOf (runProgram wCexC1).1 = [] ∧ (runProgram wCexC1).2 = 1 := by
  decide

/-- C1 amended: provided `CEREBRAS_MAX_TOKENS` (when set) parses as an
integer, every run prints exactly one payload on the primary output
stream: the JSON error envelope built from the caught exception, the
missing-key envelope, the usage envelope, or (on success) the sanitized
model answer; diagnostics are separate stderr events and never appear
among the printed payloads. -/
theorem c1_single_json_output (w : World)
    (hmt : (pyInt? (maxTokensStr w)).isSome = true) :
    ∃ s, stdoutOf (runProgram w).1 = [s]
      ∧ ((∃ exc : ExcInfo, s = jsonDumpsError (errMsgOf exc))
         ∨ s = jsonDumpsError keyMissingMsg
         ∨ s = jsonDumpsError usageMsg
         ∨ ∃ c, w.httpResult = Except.ok c ∧ s = sanitize c) := by
  obtain ⟨v, hv⟩ := Option.isSome_iff_exists.mp hmt
  simp only [runProgram, hv]
  by_cases hk : truthy w.envApiKey
  · simp only [hk, if_true]
    split
    next u b rest heq =>
      obtain ⟨s, hs, hd⟩ := analyze_repo_out w u b rest.head? ⟨[], w.initialDirs⟩
      refine ⟨s, ?_, ?_⟩
      · rw [hs]
        rfl
      · rcases hd with ⟨exc, rfl⟩ | ⟨c, hc, rfl⟩
        · exact Or.inl ⟨exc, rfl⟩
        · exact Or.inr (Or.inr (Or.inr ⟨c, hc, rfl⟩))
    next =>
      exact ⟨jsonDumpsError usageMsg, by simp [stdoutOf, stOut],
        Or.inr (Or.inr (Or.inl rfl))⟩
  · simp only [hk, if_false]
    exact ⟨jsonDumpsError keyMissingMsg, by simp [stdoutOf, stOut],
      Or.inr (Or.inl rfl)⟩

theorem c1_single_json_output_witness :
    ((pyInt? (maxTokensStr wWitC1)).isSome = true)
    ∧ ∃ s, stdoutOf (runProgram wWitC1).1 = [s]
      ∧ ((∃ exc : ExcInfo, s = jsonDumpsError (errMsgOf exc))
         ∨ s = jsonDumpsError keyMissingMsg
         ∨ s = jsonDumpsError usageMsg
         ∨ ∃ c, wWitC1.httpResult = Except.ok c ∧ s = sanitize c) :=
  ⟨by decide, c1_single_json_output wWitC1 (by decide)⟩

/-- C8 counterexample: with the API key unset and
`CEREBRAS_MAX_TOKENS=abc`, the module-level `int(...)` raises before the
key check is even reached; the process does exit non-zero, but nothing is
printed on the primary output stream, so no envelope containing
`CEREBRAS_API_KEY` appears. -/
theorem c8_counterexample :
    wCexC8.envApiKey = none
    ∧ stdoutOf (runProgram wCexC8).1 = []
    ∧ (runProgram wCexC8).2 = 1 := by
  decide

/-- C8 amended: for every environment in which the API key is unset or
empty and `CEREBRAS_MAX_TOKENS` (when set) parses as an integer, the
process exits with status 1 after printing exactly the missing-key error
envelope, whose message contains the string `CEREBRAS_API_KEY`, and the
trace contains no network activity of any kind. -/
theorem c8_missing_key_envelope (w : World)
    (hk : w.envApiKey = none ∨ w.envApiKey = some "")
    (hmt : (pyInt? (maxTokensStr w)).isSome = true) :
    stdoutOf (runProgram w).1 = [jsonDumpsError keyMissingMsg]
    ∧ (runProgram w).2 = 1
    ∧ netCount (runProgram w).1 = 0
    ∧ infixB (pstr "CEREBRAS_API_KEY") (jsonDumpsError keyMissingMsg) = true := by
  obtain ⟨v, hv⟩ := Option.isSome_iff_exists.mp hmt
  have hkf : truthy w.envApiKey = false := by
    rcases hk with h | h <;> rw [h] <;> decide
  simp only [runProgram, hv, hkf, Bool.false_eq_true, if_false]
  refine ⟨by simp [stdoutOf, stOut], by trivial, ?_, by decide⟩
  simp [netCount, stOut, List.filter_append, isNetEv]

theorem c8_missing_key_envelope_witness :
    (wWitC8.envApiKey = none ∨ wWitC8.envApiKey = some "")
    ∧ ((pyInt? (maxTokensStr wWitC8)).isSome = true)
    ∧ (stdoutOf (runProgram wWitC8).1 = [jsonDumpsError keyMissingMsg]
       ∧ (runProgram wWitC8).2 = 1
       ∧ netCount (runProgram wWitC8).1 = 0
       ∧ infixB (pstr "CEREBRAS_API_KEY") (jsonDumpsError keyMissingMsg) = true) :=
  ⟨Or.inl rfl, by decide, c8_missing_key_envelope wWitC8 (Or.inl rfl) (by decide)⟩

@[simp] theorem cloneCount_baseSt (w : World) (s' : RunSt) :
    cloneCount (baseSt w s') = cloneCount s' := by
  simp only [baseSt]
  split <;> simp

theorem shallow_clone_err_dirs (w : World) (u b : String) (s' : RunSt)
    (hs : tmpDirOf w ∉ s'.dirs) (st2 : RunSt) (exc : ExcInfo)
    (heq : shallow_clone w u b s' = (st2, Except.error exc)) :
    tmpDirOf w ∉ st2.dirs := by
  cases hc : w.cloneResult with
  | ok v =>
    cases v
    rw [shallow_clone_ok_eq w u b s' hs hc] at heq
    injection heq with h1 h2
    exact absurd h2 (by simp)
  | error e =>
    rw [shallow_clone_err_eq w u b s' e hs hc] at heq
    injection heq with h1 h2
    rw [← h1]
    simp [List.mem_filter]

theorem shallow_clone_ok_res (w : World) (u b : String) (s' : RunSt)
    (hs : tmpDirOf w ∉ s'.dirs) (st2 : RunSt) (p : List String)
    (heq : shallow_clone w u b s' = (st2, Except.ok p)) :
    p = tmpDirOf w := by
  cases hc : w.cloneResult with
  | ok v =>
    cases v
    rw [shallow_clone_ok_eq w u b s' hs hc] at heq
    injection heq with h1 h2
    injection h2 with h3
    exact h3.symm
  | error e =>
    rw [shallow_clone_err_eq w u b s' e hs hc] at heq
    injection heq with h1 h2
    exact absurd h2 (by simp)

theorem analyze_repo_tmp_gone (w : World) (u b : String) (pfx : Option String)
    (st : RunSt) (h : tmpDirOf w ∉ st.dirs) :
    tmpDirOf w ∉ (analyze_repo w u b pfx st).dirs := by
  simp only [analyze_repo]
  split
  next st2 exc heq =>
    simp only [stOut_dirs, stErr_dirs]
    exact shallow_clone_err_dirs w u b _ (by simpa using h) st2 exc heq
  next st2 repo_path heq =>
    have hp : repo_path = tmpDirOf w :=
      shallow_clone_ok_res w u b _ (by simpa using h) st2 repo_path heq
    subst hp
    split
    · exact cleanupTmp_not_mem _ _
    · exact cleanupTmp_not_mem _ _

theorem mkdir_mem_baseSt (w : World) (s' : RunSt) (p : List String)
    (hp : p ≠ baseTmpOf w) (hm : Ev.mkdirEv p ∈ (baseSt w s').evs) :
    Ev.mkdirEv p ∈ s'.evs := by
  revert hm
  simp only [baseSt]
  split
  · exact id
  · simp only [mkdir_mem_stMkdir]
    rintro (hm | he)
    · exact hm
    · exact absurd he hp

theorem analyze_repo_mkdir_mem (w : World) (u b : String) (pfx : Option String)
    (st : RunSt) (h : tmpDirOf w ∈ st.dirs)
    (hm : Ev.mkdirEv (tmpDirOf w) ∈ (analyze_repo w u b pfx st).evs) :
    Ev.mkdirEv (tmpDirOf w) ∈ st.evs := by
  simp only [analyze_repo] at hm
  rw [shallow_clone_exists_eq w u b _ (by simpa using h)] at hm
  simp only [mkdir_mem_stOut, mkdir_mem_stErr, mkdir_mem_check_dns] at hm
  have := mkdir_mem_baseSt w _ _ (fun he => base_ne_tmp w he.symm) hm
  simpa using this

@[simp] theorem stdoutOf_startErr (d : List (List String)) (s : String) :
    stdoutOf ⟨[Ev.err s], d⟩ = [] := rfl

@[simp] theorem cloneCount_startErr (d : List (List String)) (s : String) :
    cloneCount ⟨[Ev.err s], d⟩ = 0 := rfl

@[simp] theorem stdoutOf_startNil (d : List (List String)) :
    stdoutOf ⟨[], d⟩ = [] := rfl

@[simp] theorem cloneCount_startNil (d : List (List String)) :
    cloneCount ⟨[], d⟩ = 0 := rfl

/-- C4: in every run in which the clone directory was created (a mkdir
event for it appears in the trace), the directory is absent from the
final directory state, whether the run succeeded or failed later: the
clone-failure path removes it inside `shallow_clone` and every other
path reaches the `finally` cleanup. -/
theorem c4_clone_dir_removed (w : World)
    (h : Ev.mkdirEv (tmpDirOf w) ∈ (runProgram w).1.evs) :
    tmpDirOf w ∉ (runProgram w).1.dirs := by
  rcases hmt : pyInt? (maxTokensStr w) with _ | v
  · simp only [runProgram, hmt] at h
    simp [stErr] at h
  · simp only [runProgram, hmt] at h ⊢
    by_cases hk : truthy w.envApiKey
    · simp only [hk, if_true] at h ⊢
      rcases harg : w.argv with _ | ⟨a0, _ | ⟨a1, _ | ⟨a2, rest⟩⟩⟩ <;>
        simp only [harg] at h ⊢
      · simp [stOut] at h
      · simp [stOut] at h
      · simp [stOut] at h
      · by_cases hm : tmpDirOf w ∈ w.initialDirs
        · have hbase := analyze_repo_mkdir_mem w a1 a2 rest.head? ⟨[], w.initialDirs⟩ hm h
          simp at hbase
        · exact analyze_repo_tmp_gone w a1 a2 rest.head? ⟨[], w.initialDirs⟩ hm
    · simp only [hk, if_false] at h
      simp [stOut] at h

theorem c4_clone_dir_removed_witness :
    (Ev.mkdirEv (tmpDirOf wWitC4) ∈ (runProgram wWitC4).1.evs)
    ∧ tmpDirOf wWitC4 ∉ (runProgram wWitC4).1.dirs :=
  ⟨by decide, c4_clone_dir_removed wWitC4 (by decide)⟩

/-- C5: for every clone failure the run removes the partly created clone
directory inside `shallow_clone` (a rmtree event precedes everything
printed), propagates a `RuntimeError` carrying the underlying cause,
performs exactly one clone attempt, prints exactly the JSON error
envelope built from that error, and leaves the clone directory absent
from the final directory state. -/
theorem c5_clone_failure (w : World) (exc : ExcInfo) (prog u b : String)
    (rest : List String)
    (hmt : (pyInt? (maxTokensStr w)).isSome = true)
    (hk : truthy w.envApiKey = true)
    (hargv : w.argv = prog :: u :: b :: rest)
    (hnc : tmpDirOf w ∉ w.initialDirs)
    (hc : w.cloneResult = Except.error exc) :
    stdoutOf (runProgram w).1 =
      [jsonDumpsError (errMsgOf ⟨"RuntimeError", "Git clone failed: " ++ exc.msg⟩)]
    ∧ tmpDirOf w ∉ (runProgram w).1.dirs
    ∧ cloneCount (runProgram w).1 = 1
    ∧ ∃ l1 l2, (runProgram w).1.evs = l1 ++ l2
        ∧ Ev.rmtreeEv (tmpDirOf w) ∈ l1
        ∧ Ev.out (jsonDumpsError
            (errMsgOf ⟨"RuntimeError", "Git clone failed: " ++ exc.msg⟩)) ∈ l2 := by
  obtain ⟨v, hv⟩ := Option.isSome_iff_exists.mp hmt
  simp only [runProgram, hv, hk, if_true, hargv]
  simp only [analyze_repo]
  rw [shallow_clone_err_eq w u b _ exc (by simpa using hnc) hc]
  refine ⟨?_, ?_, ?_, ?_⟩
  · simp
  · simp [List.mem_filter]
  · simp
  · refine ⟨(stRmtree (stClone (stMkdir (baseSt w
        (stErr (check_dns "api.cerebras.net" w.dnsApi (check_dns "github.com" w.dnsGithub
          (stErr ⟨[], w.initialDirs⟩ ("DEBUG: Starting analysis for " ++ u ++ " on branch " ++ b))))
          "DEBUG: Attempting shallow clone...")) (tmpDirOf w)) u b) (tmpDirOf w)).evs,
      [Ev.err (errMsgOf ⟨"RuntimeError", "Git clone failed: " ++ exc.msg⟩),
       Ev.out (jsonDumpsError (errMsgOf ⟨"RuntimeError", "Git clone failed: " ++ exc.msg⟩))],
      ?_, ?_, ?_⟩
    · simp [stOut, stErr, List.append_assoc]
    · simp [stRmtree]
    · simp

theorem c5_clone_failure_witness :
    ((pyInt? (maxTokensStr wWitC5)).isSome = true)
    ∧ (truthy wWitC5.envApiKey = true)
    ∧ (wWitC5.argv = "prog" :: "https://e/r.git" :: "nosuch" :: [])
    ∧ (tmpDirOf wWitC5 ∉ wWitC5.initialDirs)
    ∧ (wWitC5.cloneResult = Except.error ⟨"GitCommandError", "boom"⟩)
    ∧ (stdoutOf (runProgram wWitC5).1 =
        [jsonDumpsError (errMsgOf ⟨"RuntimeError", "Git clone failed: " ++
          (⟨"GitCommandError", "boom"⟩ : ExcInfo).msg⟩)]
      ∧ tmpDirOf wWitC5 ∉ (runProgram wWitC5).1.dirs
      ∧ cloneCount (runProgram wWitC5).1 = 1
      ∧ ∃ l1 l2, (runProgram wWitC5).1.evs = l1 ++ l2
          ∧ Ev.rmtreeEv (tmpDirOf wWitC5) ∈ l1
          ∧ Ev.out (jsonDumpsError
              (errMsgOf ⟨"RuntimeError", "Git clone failed: " ++
                (⟨"GitCommandError", "boom"⟩ : ExcInfo).msg⟩)) ∈ l2) :=
  ⟨by decide, by decide, rfl, by decide, rfl,
   c5_clone_failure wWitC5 ⟨"GitCommandError", "boom"⟩ "prog" "https://e/r.git" "nosuch" []
     (by decide) (by decide) rfl (by decide) rfl⟩
